import Mathlib

/-!
Shallow embedding of `bot.py` (Telegram/Bybit dashboard bot).

Monetary values (parsed from the JSON strings of the exchange API) are
modelled as exact rationals; a JSON field that is absent or unparsable is
modelled as `none` and read with a default of zero, matching the source's
`float(x or 0)` / try-except-zero idiom.  The HTTP layer is modelled by
response functions: a `BybitClient` is represented by the responses its two
signed endpoints produce, and the Telegram side by the trace of outbound
requests the handlers issue.
-/

namespace Bot

/-- Python's binary `max` over exact rationals (used as `max(0.0, x)` for
the clamps).  Written as an `if` so that it evaluates on concrete input. -/
def pymax (a b : ℚ) : ℚ := if a ≤ b then b else a

/-- Python truthiness of an optional string: `None` and `""` are falsy. -/
def truthy : Option String → Bool
  | none => false
  | some s => s ≠ ""

/-- `float(x or 0)` over an optional numeric field: absent reads as zero. -/
def oget (o : Option ℚ) : ℚ := o.getD 0

/-- Body of a Bybit v5 response: `retCode`, `retMsg` and `result.list`. -/
structure ApiResponse (α : Type) where
  retCode : Int
  retMsg : String
  list : List α
  deriving DecidableEq

/-- One row of `result.list` of `/v5/account/wallet-balance`: every numeric
field is optional, read with a default of zero (`f` in the source). -/
structure WalletAccount where
  totalWalletBalance : Option ℚ := none
  totalEquity : Option ℚ := none
  totalMarginBalance : Option ℚ := none
  totalAvailableBalance : Option ℚ := none
  totalPositionIM : Option ℚ := none
  totalInitialMargin : Option ℚ := none
  totalOrderIM : Option ℚ := none
  totalMaintenanceMargin : Option ℚ := none
  deriving DecidableEq

/-- A position row: the four fields `open_positions_all` keeps
(`symbol`, `side`, `size`, `unrealisedPnl`/`upl`). -/
structure Pos where
  symbol : Option String := none
  side : Option String := none
  size : Option ℚ := none
  upl : Option ℚ := none
  deriving DecidableEq

/-- A Bybit client, modelled by the responses of its two signed GET
endpoints: `walletResp acct` is the reply to
`/v5/account/wallet-balance?accountType=acct` and `posResp category settle`
the reply to `/v5/position/list?category=...&settleCoin=...`.  The signing
itself (HMAC over timestamp/key/recv-window/query) is transport-level and
outside the model. -/
structure BybitClient where
  walletResp : String → ApiResponse WalletAccount
  posResp : String → String → ApiResponse Pos

/-- The failure string `wallet_best` remembers for a failed category:
`f"{retMsg} (retCode={retCode}, acct={acct})"`. -/
def wbMsg (r : ApiResponse WalletAccount) (acct : String) : String :=
  r.retMsg ++ " (retCode=" ++ toString r.retCode ++ ", acct=" ++ acct ++ ")"

/-- The loop body of `BybitClient.wallet_best`: walk the category list,
remembering only the latest failure message in `last`. -/
def walletTry (c : BybitClient) :
    List String → Option String → Option WalletAccount × Option String × Option String
  | [], last => (none, last, none)
  | acct :: rest, _last =>
    let data := c.walletResp acct
    if data.retCode = 0 then
      match data.list with
      | [] => (none, some "Empty response", some acct)
      | a :: _ => (some a, none, some acct)
    else
      walletTry c rest (some (wbMsg data acct))

/-- `BybitClient.wallet_best`: try UNIFIED, CONTRACT, SPOT in order;
returns `(account row, error, account type used)`. -/
def BybitClient.wallet_best (c : BybitClient) :
    Option WalletAccount × Option String × Option String :=
  walletTry c ["UNIFIED", "CONTRACT", "SPOT"] none

/-- The failure string `open_positions_all` remembers:
`f"{retMsg} (retCode={retCode}, {category}/{settle})"`. -/
def opMsg (r : ApiResponse Pos) (category settle : String) : String :=
  r.retMsg ++ " (retCode=" ++ toString r.retCode ++ ", " ++ category ++ "/" ++ settle ++ ")"

/-- The fixed attempt list of `open_positions_all`. -/
def posAttempts : List (String × String) :=
  [("linear", "USDT"), ("linear", "USDC"), ("inverse", "BTC"), ("inverse", "USDT")]

/-- The loop body of `open_positions_all`: every attempt that succeeds
contributes its rows with `size > 0`; a failing attempt only overwrites
`last_err`. -/
def posTry (c : BybitClient) :
    List (String × String) → List Pos → Option String → List Pos × Option String
  | [], positions, last_err => (positions, last_err)
  | (category, settle) :: rest, positions, last_err =>
    let data := c.posResp category settle
    if data.retCode ≠ 0 then
      posTry c rest positions (some (opMsg data category settle))
    else
      posTry c rest (positions ++ data.list.filter (fun p => oget p.size > 0)) last_err

/-- `BybitClient.open_positions_all`: aggregate open positions across all
attempts; an error is reported only when the aggregate is empty and at
least one attempt failed. -/
def BybitClient.open_positions_all (c : BybitClient) :
    Option (List Pos) × Option String :=
  match posTry c posAttempts [] none with
  | ([], some e) => (none, some e)
  | (ps, _) => (some ps, none)

/-- The record `compute_trade_metrics` returns on success. -/
structure Metrics where
  acct : Option String
  wallet_balance : ℚ
  assets_now : ℚ
  available_margin : ℚ
  used : ℚ
  pnl_open : ℚ
  capital_cost : ℚ
  capital_free_real : ℚ
  equity_mtm : ℚ
  positions : List Pos
  deriving DecidableEq

/-- All-empty account row; only used for the unreachable arm in which
`wallet_best` reports no error yet no account (the source would raise). -/
def emptyAccount : WalletAccount := {}

/-- Placeholder metrics for unreachable arms (see `emptyAccount`). -/
def defaultMetrics : Metrics :=
  ⟨none, 0, 0, 0, 0, 0, 0, 0, 0, []⟩

/-- The straight-line derivation of `compute_trade_metrics` after the two
client calls: field reads with default zero, the position-IM fallback, the
`assets_now` fallback, the clamps, and `equity_mtm`. -/
def mkMetrics (acc : WalletAccount) (acct : Option String)
    (posRes : Option (List Pos) × Option String) : Metrics :=
  let wallet_balance := oget acc.totalWalletBalance
  let equity := oget acc.totalEquity
  let margin_balance := oget acc.totalMarginBalance
  let available_margin := oget acc.totalAvailableBalance
  let position_im0 := oget acc.totalPositionIM
  let initial_margin := oget acc.totalInitialMargin
  let order_im := oget acc.totalOrderIM
  let maintenance := oget acc.totalMaintenanceMargin
  let position_im := if position_im0 ≤ 0 then initial_margin else position_im0
  let assets_now := if margin_balance > 0 then margin_balance else equity
  let pnl_open :=
    match posRes.1 with
    | some ps => if !ps.isEmpty && !truthy posRes.2 then (ps.map (fun p => oget p.upl)).sum else 0
    | none => 0
  let used := pymax 0 (assets_now - available_margin)
  let capital_cost := assets_now - pnl_open
  let capital_free_real := pymax 0 (wallet_balance - position_im - order_im - maintenance)
  let equity_mtm := wallet_balance + pnl_open
  ⟨acct, wallet_balance, assets_now, available_margin, used, pnl_open,
    capital_cost, capital_free_real, equity_mtm, posRes.1.getD []⟩

/-- `compute_trade_metrics`: wallet snapshot first (its error aborts), then
the best-effort position fetch, then the pure derivation `mkMetrics`. -/
def compute_trade_metrics (client : BybitClient) : Option Metrics × Option String :=
  match client.wallet_best with
  | (_, some err, _) => (none, some err)
  | (accOpt, none, acct) =>
    (some (mkMetrics (accOpt.getD emptyAccount) acct client.open_positions_all), none)

/-- One record of `monthly_snapshot.json`, keyed by the stringified user id.
Each field is optional: a freshly inserted record (`data[key] = {}`) has
none of them. -/
structure MonthRecord where
  month : Option String := none
  start_wallet : Option ℚ := none
  start_equity : Option ℚ := none
  deriving DecidableEq

/-- Contents of the monthly snapshot file, as a key-value store. -/
def MonthlyData := String → Option MonthRecord

/-- Point update of the store (`data[key] = r`). -/
def setRec (d : MonthlyData) (k : String) (r : MonthRecord) : MonthlyData :=
  fun k2 => if k2 = k then some r else d k2

/-- Store with no records. -/
def emptyStore : MonthlyData := fun _ => none

/-- The baseline lookup/creation part of `compute_mtd_pnl_for_user`
(source lines 399-413), given the current month key and wallet value.
`store` is the persisted file; in-memory edits to `data` only reach the
file when `save_monthly_data` runs, so the second component returns the
file as of the last save.  Steps, in source order: ensure the key exists
in the in-memory dict; migrate a same-month legacy `start_equity` into
`start_wallet` (and save); on a month change replace the record with
`{month, start_wallet := wallet}` (and save); finally read
`start_wallet` with the current wallet as default. -/
def mtdBaseline (store : MonthlyData) (month key : String) (wallet : ℚ) :
    ℚ × MonthlyData :=
  let data0 := if (store key).isNone then setRec store key {} else store
  let r0 := (data0 key).getD {}
  let doMigrate := r0.month = some month ∧ r0.start_wallet = none ∧ r0.start_equity ≠ none
  let r1 := if doMigrate then { r0 with start_wallet := r0.start_equity } else r0
  let data1 := if doMigrate then setRec data0 key r1 else data0
  let file1 := if doMigrate then data1 else store
  let isNew := r1.month ≠ some month
  let r2 := if isNew then ⟨some month, some wallet, none⟩ else r1
  let data2 := if isNew then setRec data1 key r2 else data1
  let file2 := if isNew then data2 else file1
  ((r2.start_wallet).getD wallet, file2)

/-- The record `compute_mtd_pnl_for_user` returns on success. -/
structure MtdResult where
  month : String
  acct : Option String
  start_equity : ℚ
  now_wallet : ℚ
  now_equity : ℚ
  pnl_open : ℚ
  pct : ℚ
  deriving DecidableEq

/-- One row of `/v5/market/tickers` `result.list`. -/
structure Ticker where
  symbol : Option String := none
  markPrice : Option ℚ := none
  lastPrice : Option ℚ := none
  deriving DecidableEq

/-- Per-user credentials and configuration visible to the handlers:
the optional chat allow-list (`TELEGRAM_CHAT_ID`), the per-user client
table (`USERS` / `get_client_for_user`) and the unsigned market-ticker
endpoint, modelled by its responses per (category, symbol). -/
structure Env where
  chatLimit : Option String
  users : Int → Option BybitClient
  ticker : String → String → ApiResponse Ticker

/-- `compute_mtd_pnl_for_user`: client lookup, metrics, baseline
get-or-create, then the percentage (zero when the baseline is not
positive).  Returns the Python pair plus the persisted store. -/
def compute_mtd_pnl_for_user (env : Env) (store : MonthlyData) (month : String)
    (userId : Int) : (Option MtdResult × Option String) × MonthlyData :=
  match env.users userId with
  | none => ((none, some "No API configured for you."), store)
  | some client =>
    match compute_trade_metrics client with
    | (_, some err) => ((none, some ("Bybit: " ++ err)), store)
    | (mOpt, none) =>
      let m := mOpt.getD defaultMetrics
      let (start_wallet, file2) := mtdBaseline store month (toString userId) m.wallet_balance
      let start_equity := start_wallet
      let now_equity := m.equity_mtm
      let pct := if start_equity > 0 then (now_equity - start_equity) / start_equity * 100 else 0
      ((some ⟨month, m.acct, start_equity, m.wallet_balance, now_equity, m.pnl_open, pct⟩,
        none), file2)

/-- Split a reversed digit-list into groups of three (for the `,` flag). -/
def chunk3 : List Char → List (List Char)
  | [] => []
  | [a] => [[a]]
  | [a, b] => [[a, b]]
  | a :: b :: c :: rest => [a, b, c] :: chunk3 rest

/-- Insert thousands separators into a digit string. -/
def commaGroup (s : String) : String :=
  String.intercalate "," (((chunk3 s.toList.reverse).map (fun l => String.mk l.reverse)).reverse)

/-- Left-pad with zeros to width `n`. -/
def padZeros (s : String) (n : ℕ) : String :=
  String.mk (List.replicate (n - s.length) '0') ++ s

/-- Fixed-point rendering with thousands separators, modelling Python's
`f"{x:,.<prec>f}"` over exact rationals (ties in rounding abstracted). -/
def fmtFixedComma (q : ℚ) (prec : ℕ) : String :=
  let scale : ℤ := 10 ^ prec
  let n : ℤ := round (q * (scale : ℚ))
  let sign := if n < 0 then "-" else ""
  let a := n.natAbs
  sign ++ commaGroup (toString (a / 10 ^ prec)) ++ "." ++ padZeros (toString (a % 10 ^ prec)) prec

/-- `fmt_usd`: `f"${float(x):,.2f}"` (the try-except arm never fires in the
model, where the input is already numeric). -/
def fmt_usd (x : ℚ) : String := "$" ++ fmtFixedComma x 2

/-- Explicit-sign rendering, modelling `f"{x:+.2f}"`-style formats. -/
def fmtSigned (q : ℚ) (prec : ℕ) : String :=
  let scale : ℤ := 10 ^ prec
  let n : ℤ := round (q * (scale : ℚ))
  let sign := if n < 0 then "-" else "+"
  let a := n.natAbs
  sign ++ toString (a / 10 ^ prec) ++ "." ++ padZeros (toString (a % 10 ^ prec)) prec

/-- `%m` month-number to `%B` month-name table. -/
def monthNames : List (String × String) :=
  [("01", "January"), ("02", "February"), ("03", "March"), ("04", "April"),
   ("05", "May"), ("06", "June"), ("07", "July"), ("08", "August"),
   ("09", "September"), ("10", "October"), ("11", "November"), ("12", "December")]

/-- `month_label`: render a `YYYY-MM` key as `MonthName YYYY`, falling back
to the key itself when it does not parse (the except arm). -/
def month_label (month_key : String) : String :=
  match month_key.splitOn "-" with
  | [y, mo] =>
    if y.length = 4 && y.toList.all Char.isDigit then
      match monthNames.lookup mo with
      | some nm => nm ++ " " ++ y
      | none => month_key
    else month_key
  | _ => month_key

/-- Python `str` of an optional string (`None` prints as "None"). -/
def pyStr : Option String → String
  | some s => s
  | none => "None"

/-- Python `str` of a raw optional numeric field (exchange sends these as
strings; the digits themselves are abstracted by the rational value). -/
def pyStrQ : Option ℚ → String
  | some q => toString q
  | none => "None"

/-- Scan of `bybit_get_ticker_price` over one ticker row: prefer a positive
mark price, then a positive last price, else fall through. -/
def tickerPickLast (t : Ticker) : Option (ℚ × String) :=
  match t.lastPrice with
  | some l => if l > 0 then some (l, "last") else none
  | none => none

/-- See `tickerPickLast`. -/
def tickerPick (t : Ticker) : Option (ℚ × String) :=
  match t.markPrice with
  | some m => if m > 0 then some (m, "mark") else tickerPickLast t
  | none => tickerPickLast t

/-- The category loop of `bybit_get_ticker_price`. -/
def tickerTry (ticker : String → String → ApiResponse Ticker) (symbol : String) :
    List String → Option (ℚ × String)
  | [] => none
  | c :: rest =>
    let data := ticker c symbol
    if data.retCode ≠ 0 then tickerTry ticker symbol rest
    else
      match data.list with
      | [] => tickerTry ticker symbol rest
      | t :: _ =>
        match tickerPick t with
        | some r => some r
        | none => tickerTry ticker symbol rest

/-- `bybit_get_ticker_price`: linear first, then inverse. -/
def bybit_get_ticker_price (ticker : String → String → ApiResponse Ticker)
    (symbol : String) : Option (ℚ × String) :=
  tickerTry ticker symbol ["linear", "inverse"]

/-- An inbound Telegram message, with the fields the dispatcher reads. -/
structure Message where
  chatId : String
  chatType : String := ""
  text : String := ""
  userId : Int := 0
  messageId : Int := 0
  username : Option String := none
  firstName : Option String := none
  lastName : Option String := none
  deriving DecidableEq

/-- An inbound callback query, with the fields the dispatcher reads. -/
structure CallbackQuery where
  id : String
  data : String := ""
  userId : Int := 0
  chatId : String
  deriving DecidableEq

/-- One outbound request issued while handling an update: a Telegram
`sendMessage` (the wallet menu's inline keyboard is attached to its send
but not tracked), a Telegram `answerCallbackQuery`, a signed exchange
fetch on behalf of a user (`compute_trade_metrics`, which always issues at
least one signed request), or an unsigned ticker fetch. -/
inductive Action where
  | tgSend (chatId text : String)
  | tgAnswer (cqId text : String) (showAlert : Bool)
  | exchangeCall (userId : Int)
  | tickerCall (symbol : String)
  deriving DecidableEq

/-- The dispatcher's chat allow-list test:
`TELEGRAM_CHAT_ID and chat_id != str(TELEGRAM_CHAT_ID)`. -/
def chatBlocked (env : Env) (chatId : String) : Bool :=
  truthy env.chatLimit && chatId != env.chatLimit.getD ""

/-- `fn_commands`. -/
def fn_commands : String :=
  "✨ <b>Quick Commands</b>\n\n" ++
  "• <b>/wallet</b> — balances & positions menu\n" ++
  "• <b>/pnl</b> — month-to-date PnL (includes open trades)\n" ++
  "• <b>/ids</b> — show your user_id & chat_id\n" ++
  "• <b>/commands</b> — show this list"

/-- `fn_ids`: identity lookup reply built from the message itself. -/
def fn_ids (msg : Message) : String :=
  let joined := String.intercalate " "
    (([msg.firstName, msg.lastName].filterMap id).filter (fun s => s ≠ ""))
  let name := if joined.trim = "" then "-" else joined.trim
  let u :=
    match msg.username with
    | some un => if un ≠ "" then "@" ++ un else "-"
    | none => "-"
  "🆔 <b>IDs</b>\n" ++
  "👤 user_id: <b>" ++ toString msg.userId ++ "</b>\n" ++
  "👤 name: <b>" ++ name ++ "</b> (" ++ u ++ ")\n" ++
  "💬 chat_id: <b>" ++ msg.chatId ++ "</b>\n" ++
  "💬 chat_type: <b>" ++ msg.chatType ++ "</b>"

/-- `fn_free_balance`; the second component is the trace of exchange
fetches the handler performs. -/
def fn_free_balance (env : Env) (userId : Int) : String × List Action :=
  match env.users userId with
  | none => ("⛔️ No API configured for you.", [])
  | some client =>
    match compute_trade_metrics client with
    | (_, some err) => ("❌ " ++ err, [Action.exchangeCall userId])
    | (mOpt, none) =>
      let m := mOpt.getD defaultMetrics
      let free_to_use := pymax 0 m.available_margin
      let buffer_margin := pymax 0 m.capital_free_real
      ("🟢 <b>Free Balance</b> <i>" ++ pyStr m.acct ++ "</i>\n" ++
       "Available (to use): <b>" ++ fmt_usd free_to_use ++ "</b>\n" ++
       "Buffer (extra margin): " ++ fmt_usd buffer_margin ++ "\n\n" ++
       "ℹ️ Wallet: " ++ fmt_usd m.wallet_balance ++ "\n" ++
       "ℹ️ Assets (Bybit): " ++ fmt_usd m.assets_now, [Action.exchangeCall userId])

/-- `fn_in_trade_cost`. -/
def fn_in_trade_cost (env : Env) (userId : Int) : String × List Action :=
  match env.users userId with
  | none => ("⛔️ No API configured for you.", [])
  | some client =>
    match compute_trade_metrics client with
    | (_, some err) => ("❌ " ++ err, [Action.exchangeCall userId])
    | (mOpt, none) =>
      let m := mOpt.getD defaultMetrics
      ("🟠 <b>In-Trade (Cost)</b> <i>" ++ pyStr m.acct ++ "</i>\n" ++
       "Cost basis: <b>" ++ fmt_usd m.capital_cost ++ "</b>\n" ++
       "Now (equity mtm): " ++ fmt_usd m.equity_mtm ++ "\n" ++
       "Available margin: " ++ fmt_usd m.available_margin ++ "\n\n" ++
       "ℹ️ Used: " ++ fmt_usd m.used ++ " | Open PnL: " ++ fmt_usd m.pnl_open,
       [Action.exchangeCall userId])

/-- One display line of `fn_open_positions`. -/
def posLine (p : Pos) : String :=
  "• <b>" ++ pyStr p.symbol ++ "</b> " ++ pyStr p.side ++
  " | size: " ++ pyStrQ p.size ++ " | UPL: " ++ pyStrQ p.upl

/-- `fn_open_positions`. -/
def fn_open_positions (env : Env) (userId : Int) : String × List Action :=
  match env.users userId with
  | none => ("⛔️ No API configured for you.", [])
  | some client =>
    match compute_trade_metrics client with
    | (_, some err) => ("❌ " ++ err, [Action.exchangeCall userId])
    | (mOpt, none) =>
      let m := mOpt.getD defaultMetrics
      let positions := m.positions.filter (fun p => oget p.size > 0)
      if positions.isEmpty then
        ("📌 <b>Open Positions</b>\n— none —", [Action.exchangeCall userId])
      else
        let lines := (positions.take 12).map posLine
        let extra :=
          if positions.length > 12 then
            "\n<i>+" ++ toString (positions.length - 12) ++ " hidden</i>"
          else ""
        ("📌 <b>Open Positions</b>\n" ++ String.intercalate "\n" lines ++ extra,
         [Action.exchangeCall userId])

/-- `fn_pnl`: month-to-date summary plus up to three open assets with a
live price each.  Returns the reply text, the persisted store, and the
trace of exchange/ticker fetches in issue order. -/
def fn_pnl (env : Env) (store : MonthlyData) (month : String) (userId : Int) :
    String × MonthlyData × List Action :=
  let ((rOpt, err), store1) := compute_mtd_pnl_for_user env store month userId
  let tr0 : List Action :=
    if (env.users userId).isSome then [Action.exchangeCall userId] else []
  match rOpt, err with
  | _, some e => ("❌ " ++ e, store1, tr0)
  | none, none => ("", store1, tr0)
  | some r, none =>
    let (pos_lines, tr1) :=
      match env.users userId with
      | none => ([], [])
      | some client =>
        match compute_trade_metrics client with
        | (_, some _) => ([], [Action.exchangeCall userId])
        | (mOpt, none) =>
          let m := mOpt.getD defaultMetrics
          let positions := m.positions.filter (fun p => oget p.size > 0)
          let rendered := (positions.take 3).map (fun p =>
            let sym := (p.symbol.getD "") |> (fun s => if s = "" then "?" else s)
            match bybit_get_ticker_price env.ticker sym with
            | none => ("• <b>" ++ sym ++ "</b> — price: n/a", Action.tickerCall sym)
            | some (price, src) =>
              ("• <b>" ++ sym ++ "</b> — price: <b>" ++ fmtFixedComma price 4 ++
               "</b> <i>(" ++ src ++ ")</i>", Action.tickerCall sym))
          let ls := rendered.map Prod.fst
          let ls :=
            if positions.length > 3 then
              ls ++ ["<i>+" ++ toString (positions.length - 3) ++ " more…</i>"]
            else ls
          (ls, Action.exchangeCall userId :: rendered.map Prod.snd)
    let title := month_label r.month
    let emoji := if r.pct ≥ 0 then "📈" else "📉"
    let positions_block :=
      if pos_lines ≠ ([] : List String) then
        "\n\n<b>Open Assets</b>\n" ++ String.intercalate "\n" pos_lines
      else ""
    ("📊 <b>MTD PnL — " ++ title ++ "</b>\n\n" ++
     "👤 <b>" ++ toString userId ++ "</b> <i>" ++ pyStr r.acct ++ "</i>\n" ++
     "Start (baseline): " ++ fmt_usd r.start_equity ++ "\n" ++
     "Open PnL: " ++ fmt_usd r.pnl_open ++ "\n" ++
     "Now (equity): <b>" ++ fmt_usd r.now_equity ++ "</b>\n" ++
     "Result: " ++ emoji ++ " <b>" ++ fmtSigned r.pct 2 ++ "%</b>" ++
     positions_block, store1, tr0 ++ tr1)

/-- The message arm of `main`'s dispatch loop, as the trace of outbound
requests plus the persisted monthly store.  Message-deletion scheduling
and the `wallet_context` bookkeeping only produce later `deleteMessage`
calls conditioned on send receipts; they issue no sends, callback answers
or exchange calls and are outside the trace. -/
def processMessage (env : Env) (store : MonthlyData) (month : String)
    (msg : Message) : List Action × MonthlyData :=
  let text_l := msg.text.trim.toLower
  if chatBlocked env msg.chatId then ([], store)
  else if text_l.startsWith "/commands" || text_l.startsWith "/comandos" then
    ([Action.tgSend msg.chatId fn_commands], store)
  else if text_l.startsWith "/ids" || text_l.startsWith "/id" then
    ([Action.tgSend msg.chatId (fn_ids msg)], store)
  else if text_l.startsWith "/pnl" || text_l.startsWith "/mensal" then
    let (out, store2, tr) := fn_pnl env store month msg.userId
    (tr ++ [Action.tgSend msg.chatId out], store2)
  else if text_l.startsWith "/wallet" || text_l.startsWith "/saldo" then
    if (env.users msg.userId).isNone then
      ([Action.tgSend msg.chatId "⛔️ No API configured for you."], store)
    else
      ([Action.tgSend msg.chatId "💼 <b>Wallet</b>\nPick an option:"], store)
  else ([], store)

/-- The callback arm of `main`'s dispatch loop (same conventions as
`processMessage`): acknowledge first, then the allow-list check, then the
credential check, then the token dispatch. -/
def processCallback (env : Env) (cq : CallbackQuery) : List Action :=
  let a0 := Action.tgAnswer cq.id "" false
  if chatBlocked env cq.chatId then
    [a0, Action.tgAnswer cq.id "Invalid chat." true]
  else if (env.users cq.userId).isNone then
    [a0, Action.tgSend cq.chatId "⛔️ No API configured for you."]
  else
    let (out, tr) :=
      if cq.data = "pos:open" then fn_open_positions env cq.userId
      else if cq.data = "cap:free" then fn_free_balance env cq.userId
      else if cq.data = "cap:trade" then fn_in_trade_cost env cq.userId
      else ("Unknown option.", [])
    a0 :: tr ++ [Action.tgSend cq.chatId out]

/-- One `getUpdates` result item: an update id plus its payload. -/
inductive Update where
  | message (update_id : Int) (msg : Message)
  | callback (update_id : Int) (cq : CallbackQuery)
  deriving DecidableEq

/-- The `update_id` of an update. -/
def Update.update_id : Update → Int
  | .message i _ => i
  | .callback i _ => i

/-- What the platform returned to one `getUpdates` call: a failure (with
its optional `error_code`; 409 and any other failure alike yield an empty
batch) or a successful batch. -/
inductive PollResponse where
  | failure (errorCode : Option Int)
  | success (updates : List Update)
  deriving DecidableEq

/-- `telegram_get_updates`: on a failed poll return an empty batch and
leave the offset unchanged; on a non-empty batch advance the offset to
`updates[-1].update_id + 1` before the batch is handed to the dispatcher. -/
def telegram_get_updates (offset : Option Int) (resp : PollResponse) :
    Option Int × List Update :=
  match resp with
  | .failure _ => (offset, [])
  | .success updates =>
    match updates.getLast? with
    | none => (offset, updates)
    | some u => (some (u.update_id + 1), updates)

/-- Dispatch of a single update (`for upd in updates` body). -/
def processUpdate (env : Env) (store : MonthlyData) (month : String) :
    Update → List Action × MonthlyData
  | .message _ msg => processMessage env store month msg
  | .callback _ cq => (processCallback env cq, store)

/-- Dispatch of a batch, in arrival order, threading the store. -/
def dispatchAll (env : Env) (store : MonthlyData) (month : String) :
    List Update → List Action × MonthlyData
  | [] => ([], store)
  | u :: rest =>
    let (as1, store1) := processUpdate env store month u
    let (as2, store2) := dispatchAll env store1 month rest
    (as1 ++ as2, store2)

/-- One iteration of `main`'s while-loop (poll, then dispatch): the new
offset is produced by `telegram_get_updates` from the poll response alone,
before any event of the batch is dispatched. -/
def mainStep (env : Env) (store : MonthlyData) (month : String)
    (offset : Option Int) (resp : PollResponse) :
    Option Int × List Action × MonthlyData :=
  let (offset2, updates) := telegram_get_updates offset resp
  let (actions, store2) := dispatchAll env store month updates
  (offset2, actions, store2)

/-- Count of `answerCallbackQuery` requests for a given callback id in a
trace. -/
def answerCount (cqId : String) (actions : List Action) : ℕ :=
  actions.countP (fun a =>
    match a with
    | .tgAnswer i _ _ => i == cqId
    | _ => false)

/-- Whether an action is a signed exchange fetch. -/
def isExchangeCall : Action → Bool
  | .exchangeCall _ => true
  | _ => false

/-! Concrete instances used by counterexamples and witnesses. -/

/-- A wallet-balance row with every overlapping notion of balance set,
some of them driving the clamps negative. -/
def accFull : WalletAccount :=
  { totalWalletBalance := some 100, totalEquity := some 180,
    totalMarginBalance := some 200, totalAvailableBalance := some 300,
    totalPositionIM := some 150, totalInitialMargin := some 120,
    totalOrderIM := some 30, totalMaintenanceMargin := some 5 }

/-- An open short with a negative unrealized PnL. -/
def posRow : Pos :=
  { symbol := some "BTCUSDT", side := some "Sell", size := some 2, upl := some (-7) }

/-- Client whose UNIFIED wallet query succeeds with `accFull` and whose
four position attempts each succeed with the single row `posRow`. -/
def clientFull : BybitClient :=
  { walletResp := fun acct =>
      if acct = "UNIFIED" then ⟨0, "", [accFull]⟩ else ⟨1, "err", []⟩,
    posResp := fun _ _ => ⟨0, "", [posRow]⟩ }

/-- The metrics `compute_trade_metrics` derives for `clientFull` (each of
the four position attempts contributes a copy of `posRow`). -/
def mFull : Metrics :=
  ⟨some "UNIFIED", 100, 200, 300, 0, -28, 228, 0, 72, [posRow, posRow, posRow, posRow]⟩

/-- Wallet-only account row (wallet balance 100, everything else absent). -/
def accW100 : WalletAccount := { totalWalletBalance := some 100 }

/-- Wallet-only account row (wallet balance 250). -/
def accW250 : WalletAccount := { totalWalletBalance := some 250 }

/-- Client: UNIFIED wallet 100, position fetch fails on every attempt. -/
def clientW100 : BybitClient :=
  { walletResp := fun acct =>
      if acct = "UNIFIED" then ⟨0, "", [accW100]⟩ else ⟨1, "err", []⟩,
    posResp := fun _ _ => ⟨10, "pfail", []⟩ }

/-- Client: UNIFIED wallet 250, position fetch fails on every attempt. -/
def clientW250 : BybitClient :=
  { walletResp := fun acct =>
      if acct = "UNIFIED" then ⟨0, "", [accW250]⟩ else ⟨1, "err", []⟩,
    posResp := fun _ _ => ⟨10, "pfail", []⟩ }

/-- Metrics of `clientW100`. -/
def mW100 : Metrics := ⟨some "UNIFIED", 100, 0, 0, 0, 0, 0, 100, 100, []⟩

/-- Metrics of `clientW250`. -/
def mW250 : Metrics := ⟨some "UNIFIED", 250, 0, 0, 0, 0, 0, 250, 250, []⟩

/-- A ticker endpoint that always fails (never consulted in the scenarios
below). -/
def noTicker : String → String → ApiResponse Ticker := fun _ _ => ⟨1, "", []⟩

/-- Environment with no chat limit and no configured users. -/
def envPlain : Env := ⟨none, fun _ => none, noTicker⟩

/-- Environment with chat limit `"111"` and no configured users. -/
def envLimited : Env := ⟨some "111", fun _ => none, noTicker⟩

/-- Environment with chat limit `"111"`; user 1 has client `clientW100`. -/
def envLimitedU1 : Env :=
  ⟨some "111", fun uid => if uid = 1 then some clientW100 else none, noTicker⟩

/-- Environment without chat limit; user 1 has client `clientW100`. -/
def envU1 : Env :=
  ⟨none, fun uid => if uid = 1 then some clientW100 else none, noTicker⟩

/-- Environment without chat limit; user 1 has client `clientW250`. -/
def envU1b : Env :=
  ⟨none, fun uid => if uid = 1 then some clientW250 else none, noTicker⟩

/-- An `/ids` command sent from chat `"222"` while the allow-list is
`"111"`. -/
def msgIdsWrongChat : Message :=
  { chatId := "222", chatType := "group", text := "/ids", userId := 7, messageId := 41 }

/-- A recognized-token callback from chat `"222"` under allow-list
`"111"`. -/
def cqWrongChat : CallbackQuery :=
  { id := "cb1", data := "pos:open", userId := 7, chatId := "222" }

/-- A `/wallet` command from the wrong chat (for the amended C1 witness). -/
def msgWalletWrongChat : Message :=
  { chatId := "999", chatType := "group", text := "/wallet", userId := 1, messageId := 55 }

/-- A callback from the wrong chat (for the amended C1 witness). -/
def cqWrongChat2 : CallbackQuery :=
  { id := "cb2", data := "cap:free", userId := 1, chatId := "999" }

/-- An unknown-token callback from an allowed configured user. -/
def cqBogus : CallbackQuery :=
  { id := "cb3", data := "cap:bogus", userId := 1, chatId := "444" }

/-- Environment without chat limit in which every user is configured. -/
def envC9 : Env := ⟨none, fun _ => some clientW100, noTicker⟩

/-- Wallet endpoint on which all three categories fail with distinct
messages. -/
def clientAllFail : BybitClient :=
  { walletResp := fun acct =>
      if acct = "UNIFIED" then ⟨1, "errU", []⟩
      else if acct = "CONTRACT" then ⟨2, "errC", []⟩
      else ⟨3, "errS", []⟩,
    posResp := fun _ _ => ⟨1, "perr", []⟩ }

/-- Two updates with ascending ids, as delivered by the platform. -/
def updA : Update := Update.message 5 { chatId := "1" }

/-- See `updA`. -/
def updB : Update := Update.callback 7 { id := "cbx", chatId := "1" }

/-- The MTD result of user 1's first `/pnl` query via `clientW100` in
month `2026-10` starting from an empty store. -/
def rW100 : MtdResult :=
  ⟨"2026-10", some "UNIFIED", 100, 100, 100, 0, 0⟩

/-- Whether one character list begins with another (auxiliary for
substring occurrence, used to express non-concatenation of messages). -/
def charsStartWith : List Char → List Char → Bool
  | _, [] => true
  | [], _ :: _ => false
  | a :: l, b :: m => a == b && charsStartWith l m

/-- Whether `sub` occurs as a contiguous substring of `l`. -/
def charsContain : List Char → List Char → Bool
  | [], sub => charsStartWith [] sub
  | a :: t, sub => charsStartWith (a :: t) sub || charsContain t sub

/-! Theorems. -/

/-- `open_positions_all` returns either a bare error or a bare list, never
both. -/
lemma open_positions_all_cases (c : BybitClient) :
    (∃ e, c.open_positions_all = (none, some e)) ∨
    ∃ ps, c.open_positions_all = (some ps, none) := by
  unfold BybitClient.open_positions_all
  rcases h : posTry c posAttempts [] none with ⟨ps, err⟩
  cases ps with
  | nil =>
    cases err with
    | none => exact Or.inr ⟨[], rfl⟩
    | some e => exact Or.inl ⟨e, rfl⟩
  | cons p ps2 => exact Or.inr ⟨p :: ps2, rfl⟩

/-- The clamped fields of `mkMetrics` are nonnegative whatever the inputs. -/
lemma pymax_zero_nonneg (x : ℚ) : 0 ≤ pymax 0 x := by
  unfold pymax
  split
  · assumption
  · exact le_refl 0

/-- On success, `compute_trade_metrics` returns exactly the `mkMetrics`
derivation of the fetched account row and position result. -/
lemma compute_trade_metrics_eq (client : BybitClient) (m : Metrics) (e : Option String)
    (h : compute_trade_metrics client = (some m, e)) :
    ∃ acc acct, m = mkMetrics acc acct client.open_positions_all ∧ e = none := by
  unfold compute_trade_metrics at h
  rcases hw : client.wallet_best with ⟨accOpt, err, acct⟩
  rw [hw] at h
  cases err with
  | some e2 => simp at h
  | none =>
    simp only [Prod.mk.injEq, Option.some.injEq] at h
    exact ⟨accOpt.getD emptyAccount, acct, h.1.symm, h.2.symm⟩

/-- C4: for every account snapshot and position list, whatever the signs of
the input fields, the derived `capital_free_real` and `used` are
nonnegative (clamping invariant). -/
theorem metrics_clamped (client : BybitClient) (m : Metrics) (e : Option String)
    (h : compute_trade_metrics client = (some m, e)) :
    0 ≤ m.capital_free_real ∧ 0 ≤ m.used := by
  obtain ⟨acc, acct, hm, -⟩ := compute_trade_metrics_eq client m e h
  subst hm
  exact ⟨pymax_zero_nonneg _, pymax_zero_nonneg _⟩

/-- C4 witness: `clientFull` drives both clamps negative
(assets 200 − available 300 and wallet 100 − margins 185), yet the derived
metrics `mFull` satisfy both inequalities. -/
theorem metrics_clamped_witness : 0 ≤ mFull.capital_free_real ∧ 0 ≤ mFull.used :=
  metrics_clamped clientFull mFull none (by
    norm_num [compute_trade_metrics, BybitClient.wallet_best, walletTry, wbMsg,
      BybitClient.open_positions_all, posTry, posAttempts, opMsg, mkMetrics, oget,
      truthy, pymax, clientFull, accFull, posRow, mFull, emptyAccount])

/-- The pnl and positions fields of `mkMetrics` agree with the summation
over the returned list, for the two shapes `open_positions_all` produces. -/
lemma mkMetrics_pnl_sum (acc : WalletAccount) (acct : Option String)
    (pr : Option (List Pos) × Option String) (hshape : pr.1 = none ∨ pr.2 = none) :
    (mkMetrics acc acct pr).pnl_open =
      ((mkMetrics acc acct pr).positions.map (fun p => oget p.upl)).sum := by
  rcases pr with ⟨po, pe⟩
  cases po with
  | none => simp [mkMetrics]
  | some ps =>
    have hpe : pe = none := by
      rcases hshape with h | h
      · exact absurd h (by simp)
      · exact h
    subst hpe
    cases ps with
    | nil => simp [mkMetrics, truthy]
    | cons p ps2 => simp [mkMetrics, truthy]

/-- C5: on every successful snapshot, `equity_mtm` equals
`wallet_balance + pnl_open` exactly, and `pnl_open` is the sum of the
unrealized PnL over the returned positions (zero for the empty set). -/
theorem equity_mtm_exact (client : BybitClient) (m : Metrics) (e : Option String)
    (h : compute_trade_metrics client = (some m, e)) :
    m.equity_mtm = m.wallet_balance + m.pnl_open ∧
    m.pnl_open = (m.positions.map (fun p => oget p.upl)).sum := by
  obtain ⟨acc, acct, hm, -⟩ := compute_trade_metrics_eq client m e h
  subst hm
  refine ⟨rfl, ?_⟩
  apply mkMetrics_pnl_sum
  rcases open_positions_all_cases client with ⟨e2, hc⟩ | ⟨ps, hc⟩ <;> rw [hc]
  · exact Or.inl rfl
  · exact Or.inr rfl

/-- C5 witness: `clientFull` has four open-position rows with PnL −7 each;
`equity_mtm = 100 + (−28) = 72` exactly. -/
theorem equity_mtm_exact_witness :
    mFull.equity_mtm = mFull.wallet_balance + mFull.pnl_open ∧
    mFull.pnl_open = (mFull.positions.map (fun p => oget p.upl)).sum :=
  equity_mtm_exact clientFull mFull none (by
    norm_num [compute_trade_metrics, BybitClient.wallet_best, walletTry, wbMsg,
      BybitClient.open_positions_all, posTry, posAttempts, opMsg, mkMetrics, oget,
      truthy, pymax, clientFull, accFull, posRow, mFull, emptyAccount])

/-- C10: when the position fetch fails but the wallet snapshot succeeds,
`compute_trade_metrics` still succeeds, with `pnl_open = 0`, an empty
position list and `equity_mtm = wallet_balance`; the position error is not
surfaced. -/
theorem position_error_swallowed (client : BybitClient) (acc : WalletAccount)
    (acct : Option String) (e : String)
    (hw : client.wallet_best = (some acc, none, acct))
    (hp : client.open_positions_all = (none, some e)) :
    ∃ m, compute_trade_metrics client = (some m, none) ∧
      m.pnl_open = 0 ∧ m.positions = [] ∧ m.equity_mtm = m.wallet_balance := by
  refine ⟨mkMetrics acc acct (none, some e), ?_, rfl, rfl, ?_⟩
  · simp [compute_trade_metrics, hw, hp]
  · exact add_zero _

/-- C10 witness: `clientW100` (wallet 100, every position attempt failing
with retCode 10) yields a successful snapshot that never mentions the
position error. -/
theorem position_error_swallowed_witness :
    ∃ m, compute_trade_metrics clientW100 = (some m, none) ∧
      m.pnl_open = 0 ∧ m.positions = [] ∧ m.equity_mtm = m.wallet_balance :=
  position_error_swallowed clientW100 accW100 (some "UNIFIED")
    "pfail (retCode=10, inverse/USDT)" (by decide) (by decide)

/-- Characterization of a successful `compute_mtd_pnl_for_user` run in
terms of `mtdBaseline`. -/
lemma compute_mtd_success (env : Env) (store : MonthlyData) (month : String)
    (uid : Int) (client : BybitClient) (mOpt : Option Metrics)
    (hu : env.users uid = some client)
    (hw : compute_trade_metrics client = (mOpt, none)) :
    compute_mtd_pnl_for_user env store month uid =
      ((some ⟨month, (mOpt.getD defaultMetrics).acct,
          (mtdBaseline store month (toString uid) (mOpt.getD defaultMetrics).wallet_balance).1,
          (mOpt.getD defaultMetrics).wallet_balance,
          (mOpt.getD defaultMetrics).equity_mtm,
          (mOpt.getD defaultMetrics).pnl_open,
          if (mtdBaseline store month (toString uid)
                (mOpt.getD defaultMetrics).wallet_balance).1 > 0 then
            ((mOpt.getD defaultMetrics).equity_mtm -
                (mtdBaseline store month (toString uid)
                  (mOpt.getD defaultMetrics).wallet_balance).1) /
              (mtdBaseline store month (toString uid)
                (mOpt.getD defaultMetrics).wallet_balance).1 * 100
          else 0⟩, none),
        (mtdBaseline store month (toString uid)
          (mOpt.getD defaultMetrics).wallet_balance).2) := by
  simp only [compute_mtd_pnl_for_user, hu, hw]

/-- When the store has no usable record for the month (absent key or a
different month), `mtdBaseline` returns the current wallet value and
persists exactly the record `{month, start_wallet := wallet}` under the
key, leaving other keys untouched. -/
lemma mtdBaseline_new (store : MonthlyData) (month key : String) (w : ℚ)
    (h : ∀ r, store key = some r → r.month ≠ some month) :
    (mtdBaseline store month key w).1 = w ∧
    (mtdBaseline store month key w).2 key = some ⟨some month, some w, none⟩ ∧
    ∀ k, k ≠ key → (mtdBaseline store month key w).2 k = store k := by
  cases hk : store key with
  | none =>
    refine ⟨?_, ?_, ?_⟩ <;> simp [mtdBaseline, hk, setRec]
    intro k hk2
    simp [hk2]
  | some r =>
    have hm : r.month ≠ some month := h r hk
    refine ⟨?_, ?_, ?_⟩ <;> simp [mtdBaseline, hk, setRec, hm]
    intro k hk2
    simp [hk2]

/-- A record already holding a `start_wallet` for the current month is
returned unchanged, and nothing is persisted. -/
lemma mtdBaseline_existing (store : MonthlyData) (month key : String) (w s : ℚ)
    (r : MonthRecord) (hk : store key = some r) (hm : r.month = some month)
    (hs : r.start_wallet = some s) :
    mtdBaseline store month key w = (s, store) := by
  unfold mtdBaseline
  simp [hk, hm, hs]

/-- C6: the month-to-date percentage is `(now − start) / start × 100` when
the baseline is positive, and exactly `0` when the baseline is not
positive. -/
theorem mtd_pct_branches (env : Env) (store : MonthlyData) (month : String)
    (uid : Int) (r : MtdResult)
    (h : (compute_mtd_pnl_for_user env store month uid).1 = (some r, none)) :
    (r.start_equity ≤ 0 → r.pct = 0) ∧
    (0 < r.start_equity → r.pct = (r.now_equity - r.start_equity) / r.start_equity * 100) := by
  cases hu : env.users uid with
  | none =>
    unfold compute_mtd_pnl_for_user at h
    rw [hu] at h
    simp at h
  | some client =>
    rcases hw : compute_trade_metrics client with ⟨mOpt, werr⟩
    cases werr with
    | some e2 =>
      simp [compute_mtd_pnl_for_user, hu, hw] at h
    | none =>
      rw [compute_mtd_success env store month uid client mOpt hu hw] at h
      simp only [Prod.mk.injEq, Option.some.injEq] at h
      obtain ⟨hr, -⟩ := h
      subst hr
      constructor
      · intro hle
        dsimp only at hle ⊢
        rw [if_neg (not_lt.mpr hle)]
      · intro hpos
        dsimp only at hpos ⊢
        rw [if_pos hpos]

/-- C6 witness: user 1's first query in `2026-10` has baseline 100 and
current equity 100, so the percentage is 0 via the positive branch. -/
theorem mtd_pct_branches_witness :
    (rW100.start_equity ≤ 0 → rW100.pct = 0) ∧
    (0 < rW100.start_equity →
      rW100.pct = (rW100.now_equity - rW100.start_equity) / rW100.start_equity * 100) :=
  mtd_pct_branches envU1 emptyStore "2026-10" 1 rW100 (by
    have hb := (mtdBaseline_new emptyStore "2026-10" (toString (1 : Int)) 100
      (fun r hr => by simp [emptyStore] at hr)).1
    rw [compute_mtd_success envU1 emptyStore "2026-10" 1 clientW100 (some mW100) rfl
      (by norm_num [compute_trade_metrics, BybitClient.wallet_best, walletTry, wbMsg,
        BybitClient.open_positions_all, posTry, posAttempts, opMsg, mkMetrics, oget,
        truthy, pymax, clientW100, accW100, mW100, emptyAccount])]
    norm_num [mW100, rW100, hb])

/-- C7: baseline creation is idempotent within a month: with no record for
(user, month) in the store, the first call creates and persists the record
with the current wallet value as its start, and a later call in the same
month (with a possibly different wallet value) returns the same stored
start and leaves the store unchanged. -/
theorem baseline_idempotent (env1 env2 : Env) (store : MonthlyData)
    (month : String) (uid : Int) (c1 c2 : BybitClient) (m1 m2 : Metrics)
    (hu1 : env1.users uid = some c1) (hu2 : env2.users uid = some c2)
    (hw1 : compute_trade_metrics c1 = (some m1, none))
    (hw2 : compute_trade_metrics c2 = (some m2, none))
    (hno : ∀ r, store (toString uid) = some r → r.month ≠ some month) :
    ∃ r1 store1 r2,
      compute_mtd_pnl_for_user env1 store month uid = ((some r1, none), store1) ∧
      r1.start_equity = m1.wallet_balance ∧
      store1 (toString uid) = some ⟨some month, some m1.wallet_balance, none⟩ ∧
      (∀ k, k ≠ toString uid → store1 k = store k) ∧
      compute_mtd_pnl_for_user env2 store1 month uid = ((some r2, none), store1) ∧
      r2.start_equity = r1.start_equity := by
  obtain ⟨hB1, hB2, hB3⟩ := mtdBaseline_new store month (toString uid) m1.wallet_balance hno
  have h1 := compute_mtd_success env1 store month uid c1 (some m1) hu1 hw1
  simp only [Option.getD_some] at h1
  have h2 := compute_mtd_success env2
    (mtdBaseline store month (toString uid) m1.wallet_balance).2 month uid c2 (some m2) hu2 hw2
  simp only [Option.getD_some] at h2
  have hB2eq : mtdBaseline (mtdBaseline store month (toString uid) m1.wallet_balance).2 month
      (toString uid) m2.wallet_balance =
      (m1.wallet_balance, (mtdBaseline store month (toString uid) m1.wallet_balance).2) :=
    mtdBaseline_existing _ _ _ _ _ _ hB2 rfl rfl
  rw [hB2eq] at h2
  refine ⟨_, _, _, h1, ?_, hB2, hB3, h2, ?_⟩
  · exact hB1
  · exact hB1.symm

/-- C7 witness: first call with wallet 100 creates the baseline; second
call with wallet 250 in the same month returns start 100 unchanged. -/
theorem baseline_idempotent_witness :
    ∃ r1 store1 r2,
      compute_mtd_pnl_for_user envU1 emptyStore "2026-10" 1 = ((some r1, none), store1) ∧
      r1.start_equity = mW100.wallet_balance ∧
      store1 (toString (1 : Int)) = some ⟨some "2026-10", some mW100.wallet_balance, none⟩ ∧
      (∀ k, k ≠ toString (1 : Int) → store1 k = emptyStore k) ∧
      compute_mtd_pnl_for_user envU1b store1 "2026-10" 1 = ((some r2, none), store1) ∧
      r2.start_equity = r1.start_equity :=
  baseline_idempotent envU1 envU1b emptyStore "2026-10" 1 clientW100 clientW250 mW100 mW250
    (by rfl) (by rfl)
    (by norm_num [compute_trade_metrics, BybitClient.wallet_best, walletTry, wbMsg,
      BybitClient.open_positions_all, posTry, posAttempts, opMsg, mkMetrics, oget,
      truthy, pymax, clientW100, accW100, mW100, emptyAccount])
    (by norm_num [compute_trade_metrics, BybitClient.wallet_best, walletTry, wbMsg,
      BybitClient.open_positions_all, posTry, posAttempts, opMsg, mkMetrics, oget,
      truthy, pymax, clientW250, accW250, mW250, emptyAccount])
    (fun r hr => by simp [emptyStore] at hr)

/-- C2 counterexample: on `clientAllFail` all three categories fail with
the distinct messages "errU", "errC" and "errS"; `wallet_best` returns
SPOT's failure alone, a string containing neither of the first two
messages — so the error does not concatenate the last failure message of
each category, refuting the claim at this input. -/
theorem wallet_best_no_concat_counterexample :
    clientAllFail.wallet_best = (none, some "errS (retCode=3, acct=SPOT)", none) ∧
    charsContain ("errS (retCode=3, acct=SPOT)").toList ("errU").toList = false ∧
    charsContain ("errS (retCode=3, acct=SPOT)").toList ("errC").toList = false :=
  ⟨by decide, by decide, by decide⟩

/-- C2 amended: `wallet_best` walks UNIFIED, CONTRACT, SPOT in order and
returns the first successful response's first row; a successful-but-empty
response stops the scan immediately with the error "Empty response"; and
when all three categories fail the error is the last category's failure
message alone (`retMsg (retCode=…, acct=SPOT)`), not a concatenation. -/
theorem wallet_best_amended (c : BybitClient) :
    ((c.walletResp "UNIFIED").retCode = 0 →
      ∀ a rest, (c.walletResp "UNIFIED").list = a :: rest →
      c.wallet_best = (some a, none, some "UNIFIED")) ∧
    ((c.walletResp "UNIFIED").retCode = 0 → (c.walletResp "UNIFIED").list = [] →
      c.wallet_best = (none, some "Empty response", some "UNIFIED")) ∧
    ((c.walletResp "UNIFIED").retCode ≠ 0 → (c.walletResp "CONTRACT").retCode = 0 →
      ∀ a rest, (c.walletResp "CONTRACT").list = a :: rest →
      c.wallet_best = (some a, none, some "CONTRACT")) ∧
    ((c.walletResp "UNIFIED").retCode ≠ 0 → (c.walletResp "CONTRACT").retCode = 0 →
      (c.walletResp "CONTRACT").list = [] →
      c.wallet_best = (none, some "Empty response", some "CONTRACT")) ∧
    ((c.walletResp "UNIFIED").retCode ≠ 0 → (c.walletResp "CONTRACT").retCode ≠ 0 →
      (c.walletResp "SPOT").retCode = 0 →
      ∀ a rest, (c.walletResp "SPOT").list = a :: rest →
      c.wallet_best = (some a, none, some "SPOT")) ∧
    ((c.walletResp "UNIFIED").retCode ≠ 0 → (c.walletResp "CONTRACT").retCode ≠ 0 →
      (c.walletResp "SPOT").retCode = 0 → (c.walletResp "SPOT").list = [] →
      c.wallet_best = (none, some "Empty response", some "SPOT")) ∧
    ((c.walletResp "UNIFIED").retCode ≠ 0 → (c.walletResp "CONTRACT").retCode ≠ 0 →
      (c.walletResp "SPOT").retCode ≠ 0 →
      c.wallet_best = (none, some (wbMsg (c.walletResp "SPOT") "SPOT"), none)) := by
  refine ⟨?_, ?_, ?_, ?_, ?_, ?_, ?_⟩
  · intro h0 a rest hl
    simp [BybitClient.wallet_best, walletTry, h0, hl]
  · intro h0 hl
    simp [BybitClient.wallet_best, walletTry, h0, hl]
  · intro h0 h1 a rest hl
    simp [BybitClient.wallet_best, walletTry, h0, h1, hl]
  · intro h0 h1 hl
    simp [BybitClient.wallet_best, walletTry, h0, h1, hl]
  · intro h0 h1 h2 a rest hl
    simp [BybitClient.wallet_best, walletTry, h0, h1, h2, hl]
  · intro h0 h1 h2 hl
    simp [BybitClient.wallet_best, walletTry, h0, h1, h2, hl]
  · intro h0 h1 h2
    simp [BybitClient.wallet_best, walletTry, h0, h1, h2]

/-- C2 witness: `clientW250` succeeds at the first category with a
non-empty row list, and `wallet_best` returns that first row. -/
theorem wallet_best_amended_witness :
    clientW250.wallet_best = (some accW250, none, some "UNIFIED") :=
  (wallet_best_amended clientW250).1 (by decide) accW250 [] (by decide)

/-- C1 counterexample: an `/ids` message arriving from chat "222" while
the allow-list is "111" is dropped with no outbound request at all — the
identity-lookup command is not exempt from the chat limit, contradicting
the claimed exception. -/
theorem ids_dropped_counterexample :
    processMessage envLimited emptyStore "2026-10" msgIdsWrongChat = ([], emptyStore) := by
  rfl

/-- C1 amended: when an allow-list chat is configured, every message from
another chat — including `/ids` — is dropped with no outbound request, and
every callback from another chat is only acknowledged (a plain ack
followed by an "Invalid chat." alert), with no message sent and no
exchange call. -/
theorem chat_limit_drops_all (env : Env) (store : MonthlyData) (month L : String)
    (hL : env.chatLimit = some L) (hne : L ≠ "") :
    (∀ msg : Message, msg.chatId ≠ L → processMessage env store month msg = ([], store)) ∧
    (∀ cq : CallbackQuery, cq.chatId ≠ L →
      processCallback env cq =
        [Action.tgAnswer cq.id "" false, Action.tgAnswer cq.id "Invalid chat." true]) := by
  have hblocked : ∀ cid, cid ≠ L → chatBlocked env cid = true := by
    intro cid hcid
    simp [chatBlocked, truthy, hL, hne, bne_iff_ne, hcid]
  constructor
  · intro msg hmsg
    unfold processMessage
    rw [hblocked msg.chatId hmsg]
    simp
  · intro cq hcq
    unfold processCallback
    rw [hblocked cq.chatId hcq]
    simp

/-- C1 (amended) witness: a `/wallet` message and a recognized callback,
both from chat "999" under allow-list "111", produce exactly the amended
behavior. -/
theorem chat_limit_drops_all_witness :
    processMessage envLimitedU1 emptyStore "2026-10" msgWalletWrongChat = ([], emptyStore) ∧
    processCallback envLimitedU1 cqWrongChat2 =
      [Action.tgAnswer cqWrongChat2.id "" false,
        Action.tgAnswer cqWrongChat2.id "Invalid chat." true] :=
  ⟨(chat_limit_drops_all envLimitedU1 emptyStore "2026-10" "111" rfl (by decide)).1
      msgWalletWrongChat (by decide),
    (chat_limit_drops_all envLimitedU1 emptyStore "2026-10" "111" rfl (by decide)).2
      cqWrongChat2 (by decide)⟩

/-- The trace of `fn_open_positions` is empty or a single exchange fetch. -/
lemma fn_open_positions_trace (env : Env) (uid : Int) :
    (fn_open_positions env uid).2 = [] ∨
    (fn_open_positions env uid).2 = [Action.exchangeCall uid] := by
  unfold fn_open_positions
  cases hu : env.users uid with
  | none => exact Or.inl rfl
  | some client =>
    dsimp only
    rcases hw : compute_trade_metrics client with ⟨mOpt, werr⟩
    cases werr with
    | some e => exact Or.inr rfl
    | none =>
      dsimp only
      split
      · exact Or.inr rfl
      · exact Or.inr rfl

/-- The trace of `fn_free_balance` is empty or a single exchange fetch. -/
lemma fn_free_balance_trace (env : Env) (uid : Int) :
    (fn_free_balance env uid).2 = [] ∨
    (fn_free_balance env uid).2 = [Action.exchangeCall uid] := by
  unfold fn_free_balance
  cases hu : env.users uid with
  | none => exact Or.inl rfl
  | some client =>
    dsimp only
    rcases hw : compute_trade_metrics client with ⟨mOpt, werr⟩
    cases werr with
    | some e => exact Or.inr rfl
    | none => exact Or.inr rfl

/-- The trace of `fn_in_trade_cost` is empty or a single exchange fetch. -/
lemma fn_in_trade_cost_trace (env : Env) (uid : Int) :
    (fn_in_trade_cost env uid).2 = [] ∨
    (fn_in_trade_cost env uid).2 = [Action.exchangeCall uid] := by
  unfold fn_in_trade_cost
  cases hu : env.users uid with
  | none => exact Or.inl rfl
  | some client =>
    dsimp only
    rcases hw : compute_trade_metrics client with ⟨mOpt, werr⟩
    cases werr with
    | some e => exact Or.inr rfl
    | none => exact Or.inr rfl

/-- C3 counterexample: a callback from chat "222" under allow-list "111"
is acknowledged twice (once plain, once with the "Invalid chat." alert),
refuting "exactly once regardless of branch". -/
theorem callback_double_ack_counterexample :
    answerCount "cb1" (processCallback envLimited cqWrongChat) = 2 := by decide

/-- C3 amended: `answerCallbackQuery` is invoked at least once for every
inbound callback — exactly once on every path except a callback from a
non-allowed chat, which is acknowledged twice. -/
theorem callback_ack_count (env : Env) (cq : CallbackQuery) :
    answerCount cq.id (processCallback env cq) =
      if chatBlocked env cq.chatId then 2 else 1 := by
  have hcnt : ∀ tr : List Action,
      (tr = [] ∨ tr = [Action.exchangeCall cq.userId]) → ∀ s,
      answerCount cq.id
        (Action.tgAnswer cq.id "" false :: tr ++ [Action.tgSend cq.chatId s]) = 1 := by
    rintro tr (rfl | rfl) s <;>
      simp [answerCount, List.countP_cons, List.countP_nil]
  unfold processCallback
  cases hb : chatBlocked env cq.chatId with
  | true => simp [answerCount, List.countP_cons, List.countP_nil]
  | false =>
    cases hu : env.users cq.userId with
    | none => simp [answerCount, List.countP_cons, List.countP_nil]
    | some client =>
      dsimp only [Option.isNone_some, Bool.false_eq_true, if_false, if_neg]
      by_cases h1 : cq.data = "pos:open"
      · rw [if_pos h1]
        rcases hfo : fn_open_positions env cq.userId with ⟨out, tr⟩
        have htr := fn_open_positions_trace env cq.userId
        rw [hfo] at htr
        simpa using hcnt tr htr out
      rw [if_neg h1]
      by_cases h2 : cq.data = "cap:free"
      · rw [if_pos h2]
        rcases hfo : fn_free_balance env cq.userId with ⟨out, tr⟩
        have htr := fn_free_balance_trace env cq.userId
        rw [hfo] at htr
        simpa using hcnt tr htr out
      rw [if_neg h2]
      by_cases h3 : cq.data = "cap:trade"
      · rw [if_pos h3]
        rcases hfo : fn_in_trade_cost env cq.userId with ⟨out, tr⟩
        have htr := fn_in_trade_cost_trace env cq.userId
        rw [hfo] at htr
        simpa using hcnt tr htr out
      rw [if_neg h3]
      simpa using hcnt [] (Or.inl rfl) "Unknown option."

/-- C9: for any callback whose token is none of `pos:open`, `cap:free`,
`cap:trade`, handling issues no exchange fetch on any path, and on the
path that reaches the token dispatch (allowed chat, configured client) the
trace is exactly the acknowledgement followed by the "Unknown option."
reply. -/
theorem unknown_token_no_exchange (env : Env) (cq : CallbackQuery)
    (h1 : cq.data ≠ "pos:open") (h2 : cq.data ≠ "cap:free") (h3 : cq.data ≠ "cap:trade") :
    (processCallback env cq).countP isExchangeCall = 0 ∧
    (chatBlocked env cq.chatId = false → (env.users cq.userId).isSome →
      processCallback env cq =
        [Action.tgAnswer cq.id "" false, Action.tgSend cq.chatId "Unknown option."]) := by
  unfold processCallback
  cases hb : chatBlocked env cq.chatId with
  | true =>
    constructor
    · simp [isExchangeCall, List.countP_cons, List.countP_nil]
    · intro hfalse
      simp at hfalse
  | false =>
    cases hu : env.users cq.userId with
    | none =>
      constructor
      · simp [isExchangeCall, List.countP_cons, List.countP_nil]
      · intro _ hsome
        simp at hsome
    | some client =>
      rw [if_neg h1, if_neg h2, if_neg h3]
      constructor
      · simp [isExchangeCall, List.countP_cons, List.countP_nil]
      · intro _ _
        rfl

/-- C9 witness: the unknown token `cap:bogus` from a configured user in an
unrestricted chat is answered with "Unknown option." and triggers no
exchange fetch. -/
theorem unknown_token_no_exchange_witness :
    (processCallback envC9 cqBogus).countP isExchangeCall = 0 ∧
    processCallback envC9 cqBogus =
      [Action.tgAnswer cqBogus.id "" false,
        Action.tgSend cqBogus.chatId "Unknown option."] :=
  ⟨(unknown_token_no_exchange envC9 cqBogus (by decide) (by decide) (by decide)).1,
    (unknown_token_no_exchange envC9 cqBogus (by decide) (by decide) (by decide)).2
      (by decide) rfl⟩

/-- In a list sorted nondecreasingly, every element is at most the last. -/
lemma sorted_le_getLast : ∀ (l : List Int), l.Pairwise (· ≤ ·) →
    ∀ (hne : l ≠ []) (x : Int), x ∈ l → x ≤ l.getLast hne := by
  intro l
  induction l with
  | nil => intro _ hne; exact absurd rfl hne
  | cons a t ih =>
    intro hp hne x hx
    cases t with
    | nil =>
      simp at hx
      simp [hx, List.getLast]
    | cons b t2 =>
      rw [List.getLast_cons (by simp)]
      rcases List.mem_cons.mp hx with rfl | hxt
      · have hall := (List.pairwise_cons.mp hp).1
        exact hall _ (List.getLast_mem (by simp))
      · exact ih (List.pairwise_cons.mp hp).2 (by simp) x hxt

/-- The offset component of a loop iteration is produced by the poll step
alone, independently of what dispatching does. -/
lemma mainStep_fst (env : Env) (store : MonthlyData) (month : String)
    (offset : Option Int) (resp : PollResponse) :
    (mainStep env store month offset resp).1 = (telegram_get_updates offset resp).1 := by
  unfold mainStep
  rcases h1 : telegram_get_updates offset resp with ⟨o2, us⟩
  dsimp only

/-- C8: for a successful non-empty batch (delivered, as by the platform,
with nondecreasing update ids) the offset after the poll step is exactly
`N + 1` for `N` the highest id in the batch, and this offset is fixed by
`telegram_get_updates` before dispatch runs (`mainStep_fst`); a failed or
empty poll leaves the offset unchanged. -/
theorem offset_advance (env : Env) (store : MonthlyData) (month : String)
    (offset : Option Int) (resp : PollResponse) :
    (∀ us, resp = PollResponse.success us → us ≠ [] →
      (us.map Update.update_id).Pairwise (· ≤ ·) →
      ∃ N, (mainStep env store month offset resp).1 = some (N + 1) ∧
        N ∈ us.map Update.update_id ∧ ∀ i ∈ us.map Update.update_id, i ≤ N) ∧
    (∀ e, resp = PollResponse.failure e →
      (mainStep env store month offset resp).1 = offset) ∧
    (resp = PollResponse.success [] →
      (mainStep env store month offset resp).1 = offset) := by
  refine ⟨?_, ?_, ?_⟩
  · rintro us rfl hne hsort
    rw [mainStep_fst]
    obtain ⟨u, hu⟩ : ∃ u, us.getLast? = some u :=
      ⟨us.getLast hne, List.getLast?_eq_getLast us hne⟩
    have hmapne : us.map Update.update_id ≠ [] := by simpa using hne
    refine ⟨(us.map Update.update_id).getLast hmapne, ?_, List.getLast_mem hmapne, ?_⟩
    · simp only [telegram_get_updates, hu]
      have hml : (us.map Update.update_id).getLast? = some u.update_id := by
        rw [List.getLast?_map, hu]
        rfl
      rw [List.getLast?_eq_getLast (us.map Update.update_id) hmapne] at hml
      simp only [Option.some.injEq] at hml
      simp [hml]
    · intro i hi
      exact sorted_le_getLast _ hsort hmapne i hi
  · rintro e rfl
    rw [mainStep_fst]
    rfl
  · rintro rfl
    rw [mainStep_fst]
    rfl

/-- C8 witness: polling from offset 3 a batch with ids 5 and 7 advances
the offset to 8 = 7 + 1. -/
theorem offset_advance_witness :
    ∃ N, (mainStep envPlain emptyStore "2026-10" (some 3)
        (PollResponse.success [updA, updB])).1 = some (N + 1) ∧
      N ∈ [updA, updB].map Update.update_id ∧
      ∀ i ∈ [updA, updB].map Update.update_id, i ≤ N :=
  (offset_advance envPlain emptyStore "2026-10" (some 3)
    (PollResponse.success [updA, updB])).1 [updA, updB] rfl (by decide) (by decide)

end Bot
